import Mathlib

/-!
# Verification of the ads-dashboard ETL pipeline (`Ads_BI/app.py`)

A shallow embedding of the data-handling core of the dashboard:

* key normalization (campaign names and account ids, `load_data`),
* the lookup-table construction (`manager_map` dedup, bridge maps),
* row enrichment (manager / category / URL resolution, ROAS),
* the goal-tracking derived metrics and the account-status decision
  table (`get_status`),
* the upload-merge ("upsert by natural key") engine described by the
  design document, which has no implementation among the sources here
  and is therefore modelled from the spec text.

Strings are modelled as `List Char` where character-level processing
matters and as `String` elsewhere; money amounts are modelled as `ℚ`.
-/

namespace AdsBI

/-! ## Key normalization

`load_data` normalizes campaign names with
`' '.join(str(x).split()).lower()` (and, on the map-construction side,
with the equivalent `replace(r'\s+',' ').strip().lower()`), and
normalizes account ids with `str.replace(r'\D', '', regex=True)`,
i.e. it keeps exactly the digit characters. -/

/-- The maximal non-whitespace prefix: one word of Python's `str.split()`. -/
def takeWord (l : List Char) : List Char :=
  l.takeWhile (fun d => !d.isWhitespace)

/-- What remains after the first word. -/
def dropWord (l : List Char) : List Char :=
  l.dropWhile (fun d => !d.isWhitespace)

/-- Python `str.split()` with no separator: split on runs of whitespace,
dropping empty tokens. -/
def pyWords : List Char → List (List Char)
  | [] => []
  | c :: cs =>
    if c.isWhitespace then pyWords cs
    else (c :: takeWord cs) :: pyWords (dropWord cs)
  termination_by l => l.length
  decreasing_by
  · simp only [List.length_cons]
    omega
  · simp only [List.length_cons, dropWord]
    exact Nat.lt_succ_of_le (List.dropWhile_sublist _).length_le

/-- Python `' '.join(words)`. -/
def unwords : List (List Char) → List Char
  | [] => []
  | [w] => w
  | w :: ws => w ++ ' ' :: unwords ws

/-- Campaign-key normalization from `load_data`:
`' '.join(str(x).split()).lower()` (app.py line 228, and the equivalent
regex cleaning of the `广告系列` column on line 119). -/
def normCampaignKey (l : List Char) : List Char :=
  (unwords (pyWords l)).map Char.toLower

/-- Account-id normalization from `load_data`:
`.str.replace(r'\D', '', regex=True)` (app.py lines 92 and 203) keeps
exactly the digit characters. -/
def normAccountKey (l : List Char) : List Char :=
  l.filter Char.isDigit

/-- String wrapper for `normCampaignKey`. -/
def normCampaign (s : String) : String :=
  String.mk (normCampaignKey s.data)

/-- String wrapper for `normAccountKey` (the `join_id` column). -/
def joinId (s : String) : String :=
  String.mk (normAccountKey s.data)

/-! ## Data model

`load_data` pulls one row per (day, account, campaign) from the
`t_google_cost` table, coerces the numeric columns (invalid → 0), and
joins the Excel lookup tables.  Column-name translation:
`天` = day, `广告账号` = account, `广告系列` = campaign, `费用` = spend,
`转化数` = conversions, `转化价值` = conversion value, `优化师` = manager,
`类目` = category, `最终到达网址` = final URL, `落地页` = landing page. -/

/-- A raw metric row after numeric coercion (app.py lines 193-197). -/
structure MetricRecord where
  day : String
  account : String
  campaign : String
  spend : ℚ
  conversions : ℚ
  convValue : ℚ
  deriving Repr, DecidableEq

/-- First-occurrence lookup in an association list, the semantics of a
pandas left-join against a deduplicated map and of a Python dict built
by successive inserts that is then read through `.get`. -/
def lookupFirst {α : Type} (k : String) (m : List (String × α)) : Option α :=
  (m.find? (fun p => p.1 == k)).map Prod.snd

/-- Scan of `drop_duplicates`: keep a row iff its key was not seen yet. -/
def dedupFirstAux {α : Type} (key : α → String) : List String → List α → List α
  | _, [] => []
  | seen, r :: rs =>
    if seen.contains (key r) then dedupFirstAux key seen rs
    else r :: dedupFirstAux key (key r :: seen) rs

/-- `DataFrame.drop_duplicates(subset=[key])` with the default
`keep='first'` (app.py lines 94 and 213): the first row per key value
survives, in order. -/
def dedupFirst {α : Type} (key : α → String) (rows : List α) : List α :=
  dedupFirstAux key [] rows

/-- The loaded lookup tables.  `managerRows` holds the rows of the
manager sheet as (raw `广告账号`, `优化师` cell) pairs, where `none`
models a NaN cell; the three maps are the Python dicts built from the
`广告mapping` sheet, keyed by normalized campaign name. -/
structure LookupTables where
  managerRows : List (String × Option String)
  bridge_map : List (String × String)
  landing_page_map : List (String × String)
  category_direct_map : List (String × String)

/-- The deduplicated manager join map: `join_id` is computed by the
digit-filter normalization (line 92) and duplicates are dropped keeping
the first occurrence (lines 94 and 213). -/
def managerJoinMap (t : LookupTables) : List (String × Option String) :=
  dedupFirst Prod.fst (t.managerRows.map (fun p => (joinId p.1, p.2)))

/-- `get_url_from_campaign` (app.py lines 225-229). -/
def get_url_from_campaign (t : LookupTables) (campaign : String) : String :=
  (lookupFirst (normCampaign campaign) t.bridge_map).getD ""

/-- `get_lp_from_campaign` (app.py lines 231-234). -/
def get_lp_from_campaign (t : LookupTables) (campaign : String) : String :=
  (lookupFirst (normCampaign campaign) t.landing_page_map).getD ""

/-- `get_cat_from_campaign` (app.py lines 236-240): the category comes
strictly from the mapping sheet, with default `"Unknown"`. -/
def get_cat_from_campaign (t : LookupTables) (campaign : String) : String :=
  (lookupFirst (normCampaign campaign) t.category_direct_map).getD "Unknown"

/-- The per-row ROAS of app.py line 200:
`x['转化价值'] / x['费用'] if x['费用'] > 0 else 0`. -/
def rowROAS (spend convValue : ℚ) : ℚ :=
  if spend > 0 then convValue / spend else 0

/-- A fully enriched row (app.py lines 199-258). -/
structure EnrichedRecord where
  record : MetricRecord
  roas : ℚ
  manager : String
  finalUrl : String
  landingPage : String
  category : String
  adGroup : String
  groupId : String
  deriving Repr, DecidableEq

/-- The enrichment applied by `load_data` to every loaded row
(app.py lines 199-258): ROAS, the manager left-join with `"Unknown"`
fill, the three campaign lookups, the constant `广告组`, and the
synthesized `广告组id`. -/
def enrichRecord (t : LookupTables) (r : MetricRecord) : EnrichedRecord :=
  { record := r
    roas := rowROAS r.spend r.convValue
    manager := ((lookupFirst (joinId r.account) (managerJoinMap t)).bind id).getD "Unknown"
    finalUrl := get_url_from_campaign t r.campaign
    landingPage := get_lp_from_campaign t r.campaign
    category := get_cat_from_campaign t r.campaign
    adGroup := "All"
    groupId := r.account ++ "_" ++ get_cat_from_campaign t r.campaign ++ "_" ++ r.campaign }

/-- Enrichment of a whole record set: one output row per input row. -/
def enrichAll (t : LookupTables) (rs : List MetricRecord) : List EnrichedRecord :=
  rs.map (enrichRecord t)

/-! ## Goal tracking (tab6, app.py lines 596-636)

One merged goal row per account after the left join of the goal CSV
against the monthly actuals aggregate; `累计GMV`/`累计实际消耗` are the
`fillna(0)` cumulative actuals.  Translation: `目标ROI` = target ROI,
`目标GMV` = target GMV, `目标消耗额` = target spend, `月时间进度` =
month time progress. -/

structure GoalRow where
  manager : String
  account : String
  target_roi : ℚ
  target_gmv : ℚ
  target_spend : ℚ
  cum_gmv : ℚ
  cum_spend : ℚ
  time_progress : ℚ
  deriving Repr, DecidableEq

/-- `GMV进度` (app.py line 606):
`x['累计GMV'] / x['目标GMV'] if x['目标GMV'] > 0 else 0`. -/
def gmvProgress (r : GoalRow) : ℚ :=
  if r.target_gmv > 0 then r.cum_gmv / r.target_gmv else 0

/-- `GMV进度与时间进度差距` (app.py line 609). -/
def gmvTimeGap (r : GoalRow) : ℚ :=
  gmvProgress r - r.time_progress

/-- `消耗进度` (app.py line 612):
`x['累计实际消耗'] / x['目标消耗额'] if x['目标消耗额'] > 0 else 0`. -/
def spendProgress (r : GoalRow) : ℚ :=
  if r.target_spend > 0 then r.cum_spend / r.target_spend else 0

/-- `消耗偏差值` (app.py line 619):
`(x['累计GMV'] / x['目标ROI']) - x['累计实际消耗'] if x['目标ROI'] > 0
else -x['累计实际消耗']`. -/
def spendDeviation (r : GoalRow) : ℚ :=
  if r.target_roi > 0 then r.cum_gmv / r.target_roi - r.cum_spend else -r.cum_spend

/-- `消耗进度与GMV进度差` (app.py line 622). -/
def spendGmvGap (r : GoalRow) : ℚ :=
  spendProgress r - gmvProgress r

/-- `get_status` (app.py lines 626-634), the account-status decision
table.  The returned strings are the code's own labels:
`无计划消耗` = "No planned spend", `消耗过快 (需优化)` = "Overspending —
needs optimization", `进度严重滞后` = "Severely behind schedule",
`正常 (无需干预)` = "Normal — no intervention needed". -/
def get_status (r : GoalRow) : String :=
  if r.target_spend = 0 then "无计划消耗"
  else if spendGmvGap r > 1/10 then "消耗过快 (需优化)"
  else if gmvTimeGap r < -(1/5) then "进度严重滞后"
  else "正常 (无需干预)"

/-! ## Python `str.strip()` -/

/-- Python `str.strip()`: drop leading and trailing whitespace. -/
def pyStrip (l : List Char) : List Char :=
  ((l.dropWhile Char.isWhitespace).reverse.dropWhile Char.isWhitespace).reverse

/-! ## The account-id normalization as the specification words it

The spec (§4.1) describes account normalization as pattern extraction.
This second, clearly named definition follows the spec's words so it can
be compared with `joinId`, the normalization the source actually
applies. -/

/-- Does `l` start with the pattern `ddd-ddd-dddd`? -/
def accountPatternAt (l : List Char) : Bool :=
  match l with
  | d1 :: d2 :: d3 :: h1 :: d4 :: d5 :: d6 :: h2 :: d7 :: d8 :: d9 :: d10 :: _ =>
    d1.isDigit && d2.isDigit && d3.isDigit && (h1 == '-') &&
    d4.isDigit && d5.isDigit && d6.isDigit && (h2 == '-') &&
    d7.isDigit && d8.isDigit && d9.isDigit && d10.isDigit
  | _ => false

/-- First (leftmost) substring matching `ddd-ddd-dddd`, if any. -/
def findAccountPattern : List Char → Option (List Char)
  | [] => none
  | c :: cs =>
    if accountPatternAt (c :: cs) then some ((c :: cs).take 12)
    else findAccountPattern cs

/-- The account-id normalization described by spec §4.1 / claim C2:
extract the first `ddd-ddd-dddd` substring, else fall back to the
stripped original string.  (Comparison definition only; the source's
normalization is `joinId`.) -/
def claimedAccountNormalize (s : String) : String :=
  match findAccountPattern s.data with
  | some p => String.mk p
  | none => String.mk (pyStrip s.data)

/-! ## Upload-merge ("upsert by natural key") engine

No implementation of the upload-merge flow exists among the sources
here (`src/` holds only the dashboard app and read-only diagnostic
scripts); the engine below is modelled from the design document §4.5. -/

/-- Modelled from the spec: the metric-keyword list of §4.5 used to
classify columns ("matches a known metric name or contains a metric
keyword substring, case-insensitive"). -/
def METRIC_KEYWORDS : List String :=
  ["cost", "value", "cpc", "cpm", "ctr", "rate", "clicks",
   "impressions", "conversions", "roas", "view"]

/-- Is `pat` a contiguous substring of `l`? -/
def containsPat (pat : List Char) : List Char → Bool
  | [] => pat.isEmpty
  | c :: cs => pat.isPrefixOf (c :: cs) || containsPat pat cs

/-- Modelled from the spec: column classification of §4.5 — a column is
a metric column iff its lower-cased name contains one of the metric
keywords as a substring; every other column is a dimension column. -/
def isMetricCol (name : String) : Bool :=
  METRIC_KEYWORDS.any (fun k => containsPat k.data (name.data.map Char.toLower))

/-- A parsed upload row: one string cell per schema column. -/
structure UploadRow where
  cells : List String
  deriving Repr, DecidableEq

/-- The dimension (non-metric) cells of a row under a schema. -/
def dimCells (schema : List String) (row : UploadRow) : List String :=
  ((schema.zip row.cells).filter (fun p => !isMetricCol p.1)).map Prod.snd

/-- The metric cells of a row under a schema. -/
def metricCells (schema : List String) (row : UploadRow) : List String :=
  ((schema.zip row.cells).filter (fun p => isMetricCol p.1)).map Prod.snd

/-- Modelled from the spec: the composite dedup key of §4.5, the
stripped dimension-cell values joined with a delimiter. -/
def dedupKey (schema : List String) (row : UploadRow) : String :=
  String.intercalate "||"
    ((dimCells schema row).map (fun c => String.mk (pyStrip c.data)))

/-- `drop_duplicates(keep='last')`: keep a row iff no later row has the
same key; the last occurrence per key survives, in order. -/
def dedupKeepLast {α : Type} (key : α → String) : List α → List α
  | [] => []
  | r :: rs =>
    if rs.any (fun r2 => key r2 == key r) then dedupKeepLast key rs
    else r :: dedupKeepLast key rs

/-- Modelled from the spec: the merge engine of §4.5 — concatenate
existing rows then new rows and collapse by the dimension dedup key
keeping the last occurrence ("new data overwrites old for identical
dimension combinations").  Rows are assumed already validated (the
account-id digit check of §4.5 happens before key computation). -/
def mergeRecords (schema : List String) (existing newRows : List UploadRow) :
    List UploadRow :=
  dedupKeepLast (dedupKey schema) (existing ++ newRows)

/-! ## Concrete fixtures used by scenario claims and witnesses -/

/-- Empty lookup tables (missing/empty mapping sheets). -/
def emptyTables : LookupTables :=
  { managerRows := [], bridge_map := [], landing_page_map := [],
    category_direct_map := [] }

/-- The scenario row of the spec's testable properties:
`MetricRecord{date=2024-05-01, account="123-456-7890",
campaign="Shopping US", spend=100, conv_value=250}`. -/
def scenarioRecord : MetricRecord :=
  { day := "2024-05-01", account := "123-456-7890", campaign := "Shopping US",
    spend := 100, conversions := 0, convValue := 250 }

/-- Tables whose manager sheet lists the same account twice with two
different managers (used to settle the duplicate-handling claim). -/
def dupManagerTables : LookupTables :=
  { managerRows := [("111-222-3333", some "Alice"), ("111-222-3333", some "Bob")],
    bridge_map := [], landing_page_map := [], category_direct_map := [] }

/-- A row on the duplicated account of `dupManagerTables`. -/
def dupAccountRecord : MetricRecord :=
  { day := "2024-05-01", account := "111-222-3333", campaign := "Search CN",
    spend := 10, conversions := 1, convValue := 10 }

/-- Tables with one direct campaign-category entry. -/
def catTables : LookupTables :=
  { managerRows := [], bridge_map := [], landing_page_map := [],
    category_direct_map := [("shopping us", "Grooming")] }

/-- A row whose account id carries no digit at all. -/
def noDigitRecord : MetricRecord :=
  { day := "2024-05-01", account := "TOTAL", campaign := "Video JP",
    spend := 1, conversions := 0, convValue := 0 }

/-- Goal row with no planned spend (`目标消耗额 = 0`). -/
def goalRowA : GoalRow :=
  { manager := "m", account := "a", target_roi := 0, target_gmv := 0,
    target_spend := 0, cum_gmv := 0, cum_spend := 0, time_progress := 0 }

/-- Goal row overspending: spend progress 1.2 vs GMV progress 0.5. -/
def goalRowB : GoalRow :=
  { manager := "m", account := "b", target_roi := 2, target_gmv := 1000,
    target_spend := 1000, cum_gmv := 500, cum_spend := 1200,
    time_progress := 1/2 }

/-- Goal row severely behind: GMV progress 0.1 vs time progress 0.5. -/
def goalRowC : GoalRow :=
  { manager := "m", account := "c", target_roi := 2, target_gmv := 1000,
    target_spend := 1000, cum_gmv := 100, cum_spend := 100,
    time_progress := 1/2 }

/-- Goal row exactly on track. -/
def goalRowD : GoalRow :=
  { manager := "m", account := "d", target_roi := 2, target_gmv := 1000,
    target_spend := 1000, cum_gmv := 500, cum_spend := 500,
    time_progress := 1/2 }

/-- Schema of the upload-merge example: two dimension columns and one
metric column. -/
def mergeSchema : List String := ["date", "account", "cost"]

/-- Existing row of the upload-merge example. -/
def oldUploadRow : UploadRow := { cells := ["2024-01-01", "123", "5"] }

/-- New row of the upload-merge example: same dimensions, new metric. -/
def newUploadRow : UploadRow := { cells := ["2024-01-01", "123", "7"] }

/-- The shared dimension key of the upload-merge example. -/
def mergeKey : String := "2024-01-01||123"

/-! ## Supporting lemmas -/

/-! ### Character-level facts about `Char.toLower` and `Char.isWhitespace` -/

lemma char_toNat_ofNat {n : Nat} (h : n < 0xd800) : (Char.ofNat n).toNat = n := by
  unfold Char.ofNat
  rw [dif_pos (Or.inl h)]
  rfl

lemma char_eq_iff_toNat {c d : Char} : c = d ↔ c.toNat = d.toNat :=
  ⟨fun h => h ▸ rfl, fun h => Char.ext (UInt32.toNat.inj h)⟩

lemma isWhitespace_iff_toNat {c : Char} :
    c.isWhitespace = true ↔
      c.toNat = 32 ∨ c.toNat = 9 ∨ c.toNat = 13 ∨ c.toNat = 10 := by
  simp only [Char.isWhitespace, Bool.or_eq_true, decide_eq_true_eq,
    char_eq_iff_toNat]
  rw [show (' ' : Char).toNat = 32 from rfl, show ('\t' : Char).toNat = 9 from rfl,
    show ('\r' : Char).toNat = 13 from rfl, show ('\n' : Char).toNat = 10 from rfl]
  tauto

lemma toLower_of_upper {c : Char} (h : 65 ≤ c.toNat ∧ c.toNat ≤ 90) :
    (Char.toLower c).toNat = c.toNat + 32 := by
  simp only [Char.toLower]
  rw [if_pos h]
  exact char_toNat_ofNat (by omega)

lemma toLower_of_not_upper {c : Char} (h : ¬(65 ≤ c.toNat ∧ c.toNat ≤ 90)) :
    Char.toLower c = c := by
  simp only [Char.toLower]
  exact if_neg h

lemma toLower_toLower (c : Char) :
    Char.toLower (Char.toLower c) = Char.toLower c := by
  by_cases h : 65 ≤ c.toNat ∧ c.toNat ≤ 90
  · have h1 := toLower_of_upper h
    exact toLower_of_not_upper (by omega)
  · rw [toLower_of_not_upper h]
    exact toLower_of_not_upper h

lemma isWhitespace_toLower (c : Char) :
    (Char.toLower c).isWhitespace = c.isWhitespace := by
  by_cases h : 65 ≤ c.toNat ∧ c.toNat ≤ 90
  · have h1 := toLower_of_upper h
    have e1 : (Char.toLower c).isWhitespace = false := by
      by_contra hh
      rw [Bool.not_eq_false] at hh
      rcases isWhitespace_iff_toNat.mp hh with h2 | h2 | h2 | h2 <;> omega
    have e2 : c.isWhitespace = false := by
      by_contra hh
      rw [Bool.not_eq_false] at hh
      rcases isWhitespace_iff_toNat.mp hh with h2 | h2 | h2 | h2 <;> omega
    rw [e1, e2]
  · rw [toLower_of_not_upper h]

lemma toLower_space : Char.toLower ' ' = ' ' := by decide

/-! ### Structure of `pyWords` and `unwords` -/

lemma takeWhile_eq_self_of_all {α : Type} {p : α → Bool} {l : List α}
    (h : ∀ x ∈ l, p x = true) : l.takeWhile p = l := by
  have h2 := @List.takeWhile_append_of_pos α p l [] h
  simpa using h2

lemma dropWhile_eq_nil_of_all {α : Type} {p : α → Bool} {l : List α}
    (h : ∀ x ∈ l, p x = true) : l.dropWhile p = [] := by
  have h2 := @List.dropWhile_append_of_pos α p l [] h
  simpa using h2

/-- Every token produced by `pyWords` is non-empty and whitespace-free. -/
lemma pyWords_good (l : List Char) :
    ∀ w ∈ pyWords l, w ≠ [] ∧ ∀ c ∈ w, c.isWhitespace = false := by
  induction l using pyWords.induct with
  | case1 => simp [pyWords]
  | case2 c cs h ih =>
    rw [pyWords, if_pos h]
    exact ih
  | case3 c cs h ih =>
    rw [pyWords, if_neg h]
    intro w hw
    rcases List.mem_cons.mp hw with rfl | hw2
    · refine ⟨by simp, ?_⟩
      intro d hd
      rcases List.mem_cons.mp hd with rfl | hd2
      · exact Bool.not_eq_true _ ▸ (by simpa using h)
      · have h3 := List.mem_takeWhile_imp hd2
        simpa using h3
    · exact ih w hw2

/-- Splitting the space-joined image of a list of non-empty,
whitespace-free words recovers exactly those words. -/
lemma pyWords_unwords (ws : List (List Char))
    (h : ∀ w ∈ ws, w ≠ [] ∧ ∀ c ∈ w, c.isWhitespace = false) :
    pyWords (unwords ws) = ws := by
  induction ws with
  | nil => simp [unwords, pyWords]
  | cons w ws ih =>
    obtain ⟨hne, hchars⟩ := h w (List.mem_cons_self w ws)
    obtain ⟨c, rest, rfl⟩ := List.exists_cons_of_ne_nil hne
    have hc : c.isWhitespace = false := hchars c (List.mem_cons_self c rest)
    have hrest : ∀ x ∈ rest, (!x.isWhitespace) = true := by
      intro x hx
      simp [hchars x (List.mem_cons_of_mem c hx)]
    cases ws with
    | nil =>
      show pyWords (unwords [c :: rest]) = [c :: rest]
      rw [unwords, pyWords, if_neg (by simp [hc])]
      rw [takeWord, takeWhile_eq_self_of_all hrest]
      rw [dropWord, dropWhile_eq_nil_of_all hrest]
      rw [pyWords]
    | cons w' ws' =>
      have hunw : unwords ((c :: rest) :: w' :: ws') =
          c :: (rest ++ ' ' :: unwords (w' :: ws')) := rfl
      rw [hunw, pyWords, if_neg (by simp [hc])]
      rw [takeWord, List.takeWhile_append_of_pos hrest]
      rw [List.takeWhile_cons_of_neg (by simp)]
      rw [dropWord, List.dropWhile_append_of_pos hrest]
      rw [List.dropWhile_cons_of_neg (by simp)]
      rw [pyWords, if_pos (by simp)]
      rw [List.append_nil]
      rw [ih (fun w hw => h w (List.mem_cons_of_mem _ hw))]

/-- `Char.toLower` commutes with joining words by single spaces. -/
lemma map_toLower_unwords (ws : List (List Char)) :
    (unwords ws).map Char.toLower =
      unwords (ws.map (List.map Char.toLower)) := by
  induction ws with
  | nil => simp [unwords]
  | cons w ws ih =>
    cases ws with
    | nil => simp [unwords]
    | cons w' ws' =>
      have h1 : unwords (w :: w' :: ws') = w ++ ' ' :: unwords (w' :: ws') := rfl
      have h2 : unwords ((w :: w' :: ws').map (List.map Char.toLower)) =
          w.map Char.toLower ++
            ' ' :: unwords ((w' :: ws').map (List.map Char.toLower)) := rfl
      rw [h1, h2, List.map_append, List.map_cons, toLower_space, ih]

lemma map_toLower_idem (w : List Char) :
    (w.map Char.toLower).map Char.toLower = w.map Char.toLower := by
  rw [List.map_map]
  exact List.map_congr_left (fun c _ => toLower_toLower c)

/-- The campaign-key normalization of `load_data` is idempotent. -/
lemma normCampaignKey_idem (l : List Char) :
    normCampaignKey (normCampaignKey l) = normCampaignKey l := by
  unfold normCampaignKey
  set W := pyWords l with hW
  have hgoodW := pyWords_good l
  have hgood2 : ∀ w ∈ W.map (List.map Char.toLower),
      w ≠ [] ∧ ∀ c ∈ w, c.isWhitespace = false := by
    intro w hw
    obtain ⟨v, hv, rfl⟩ := List.mem_map.mp hw
    obtain ⟨hvne, hvchars⟩ := hgoodW v hv
    constructor
    · simpa using hvne
    · intro c hc
      obtain ⟨d, hd, rfl⟩ := List.mem_map.mp hc
      rw [isWhitespace_toLower]
      exact hvchars d hd
  rw [map_toLower_unwords W]
  rw [pyWords_unwords _ hgood2]
  rw [map_toLower_unwords]
  rw [List.map_map]
  have : (List.map Char.toLower ∘ List.map Char.toLower) =
      fun w => List.map Char.toLower w := by
    funext w
    exact map_toLower_idem w
  rw [this]

/-! ### Deduplication lemmas -/

lemma mem_of_mem_dedupFirstAux {α : Type} (key : α → String) :
    ∀ (rows : List α) (seen : List String) (x : α),
      x ∈ dedupFirstAux key seen rows → x ∈ rows := by
  intro rows
  induction rows with
  | nil =>
    intro seen x hx
    simp [dedupFirstAux] at hx
  | cons r rs ih =>
    intro seen x hx
    simp only [dedupFirstAux] at hx
    by_cases hc : seen.contains (key r)
    · rw [if_pos hc] at hx
      exact List.mem_cons_of_mem _ (ih seen x hx)
    · rw [if_neg hc] at hx
      rcases List.mem_cons.mp hx with rfl | hx2
      · exact List.mem_cons_self _ _
      · exact List.mem_cons_of_mem _ (ih _ x hx2)

/-- First-match lookup is unchanged by the keep-first dedup scan, as
long as the sought key has not been consumed into `seen`. -/
lemma find?_dedupFirstAux {α : Type} (k : String) :
    ∀ (rows : List (String × α)) (seen : List String), k ∉ seen →
      (dedupFirstAux Prod.fst seen rows).find? (fun p => p.1 == k) =
        rows.find? (fun p => p.1 == k) := by
  intro rows
  induction rows with
  | nil =>
    intro seen _
    rfl
  | cons r rs ih =>
    intro seen h
    simp only [dedupFirstAux]
    by_cases hc : seen.contains r.1
    · rw [if_pos hc]
      have hb : (r.1 == k) = false := by
        rw [beq_eq_false_iff_ne]
        intro he
        rw [he] at hc
        simp at hc
        exact h hc
      simp only [List.find?_cons, hb]
      exact ih seen h
    · rw [if_neg hc]
      by_cases hk : r.1 = k
      · have hb : (r.1 == k) = true := by simp [hk]
        simp only [List.find?_cons, hb]
      · have hb : (r.1 == k) = false := by simp [hk]
        simp only [List.find?_cons, hb]
        apply ih
        intro hmem
        rcases List.mem_cons.mp hmem with he | hmem2
        · exact hk he.symm
        · exact h hmem2

/-- The keep-first dedup scan emits each key at most once, and never a
key from `seen`. -/
lemma dedupFirstAux_nodup_keys {α : Type} (key : α → String) :
    ∀ (rows : List α) (seen : List String),
      ((dedupFirstAux key seen rows).map key).Nodup ∧
      ∀ x ∈ dedupFirstAux key seen rows, key x ∉ seen := by
  intro rows
  induction rows with
  | nil =>
    intro seen
    constructor
    · simp [dedupFirstAux]
    · intro x hx
      simp [dedupFirstAux] at hx
  | cons r rs ih =>
    intro seen
    simp only [dedupFirstAux]
    by_cases hc : seen.contains (key r)
    · rw [if_pos hc]
      exact ih seen
    · rw [if_neg hc]
      obtain ⟨ihnodup, ihseen⟩ := ih (key r :: seen)
      constructor
      · rw [List.map_cons, List.nodup_cons]
        refine ⟨?_, ihnodup⟩
        intro hmem
        obtain ⟨x, hx, hkx⟩ := List.mem_map.mp hmem
        exact ihseen x hx (hkx ▸ List.mem_cons_self _ _)
      · intro x hx
        rcases List.mem_cons.mp hx with rfl | hx2
        · simpa using hc
        · intro hmem
          exact ihseen x hx2 (List.mem_cons_of_mem _ hmem)

/-- The keep-last dedup scan keeps, for each key, exactly the last
occurrence of that key. -/
lemma filter_dedupKeepLast {α : Type} (key : α → String) (k : String) :
    ∀ rows : List α,
      (dedupKeepLast key rows).filter (fun r => key r == k) =
        ((rows.filter (fun r => key r == k)).getLast?).toList := by
  intro rows
  induction rows with
  | nil => rfl
  | cons r rs ih =>
    simp only [dedupKeepLast]
    by_cases hdup : rs.any (fun r2 => key r2 == key r)
    · rw [if_pos hdup]
      by_cases hk : key r = k
      · have hfe : (r :: rs).filter (fun r => key r == k) =
            r :: rs.filter (fun r => key r == k) :=
          List.filter_cons_of_pos (by simp [hk])
        have hne : rs.filter (fun r => key r == k) ≠ [] := by
          obtain ⟨r2, hr2mem, hr2k⟩ := List.any_eq_true.mp hdup
          refine List.ne_nil_of_mem (List.mem_filter.mpr ⟨hr2mem, ?_⟩)
          have he2 : key r2 = key r := by simpa using hr2k
          simp [he2, hk]
        obtain ⟨b, l2, hL⟩ := List.exists_cons_of_ne_nil hne
        rw [ih, hfe, hL, List.getLast?_cons_cons]
      · have hfe : (r :: rs).filter (fun r => key r == k) =
            rs.filter (fun r => key r == k) :=
          List.filter_cons_of_neg (by simp [hk])
        rw [ih, hfe]
    · rw [if_neg hdup]
      by_cases hk : key r = k
      · have hfe : (r :: rs).filter (fun r => key r == k) =
            r :: rs.filter (fun r => key r == k) :=
          List.filter_cons_of_pos (by simp [hk])
        have hfd : (r :: dedupKeepLast key rs).filter (fun r => key r == k) =
            r :: (dedupKeepLast key rs).filter (fun r => key r == k) :=
          List.filter_cons_of_pos (by simp [hk])
        have hrsf : rs.filter (fun r => key r == k) = [] := by
          rw [Bool.not_eq_true] at hdup
          rw [hk] at hdup
          rw [List.any_eq_false] at hdup
          exact List.filter_eq_nil_iff.mpr hdup
        rw [hfd, ih, hfe, hrsf]
        rfl
      · have hfe : (r :: rs).filter (fun r => key r == k) =
            rs.filter (fun r => key r == k) :=
          List.filter_cons_of_neg (by simp [hk])
        have hfd : (r :: dedupKeepLast key rs).filter (fun r => key r == k) =
            (dedupKeepLast key rs).filter (fun r => key r == k) :=
          List.filter_cons_of_neg (by simp [hk])
        rw [hfd, ih, hfe]

/-- The account-key normalization of `load_data` is idempotent. -/
lemma normAccountKey_idem (l : List Char) :
    normAccountKey (normAccountKey l) = normAccountKey l := by
  unfold normAccountKey
  rw [List.filter_filter]
  exact List.filter_congr (fun c _ => by cases h : c.isDigit <;> simp [h])

/-! ## Claim theorems -/

/-- C5: for every loaded metric row the derived efficiency ratio (ROAS,
app.py line 200) equals conversion value / spend when spend > 0 and
equals 0 when spend ≤ 0; the division is taken only under a positive
denominator. -/
theorem c5_efficiency_ratio (t : LookupTables) (r : MetricRecord) :
    (0 < r.spend → (enrichRecord t r).roas = r.convValue / r.spend) ∧
    (r.spend ≤ 0 → (enrichRecord t r).roas = 0) := by
  constructor
  · intro h
    simp [enrichRecord, rowROAS, h]
  · intro h
    simp [enrichRecord, rowROAS, not_lt.mpr h]

/-- Witness for C5: the scenario row has spend 100 > 0 and ROAS
250 / 100; a zero-spend row has ROAS 0. -/
theorem c5_efficiency_ratio_witness :
    (enrichRecord emptyTables scenarioRecord).roas = 250 / 100 ∧
    (enrichRecord emptyTables noDigitRecord).roas = 0 / 1 :=
  ⟨(c5_efficiency_ratio emptyTables scenarioRecord).1 (by norm_num [scenarioRecord]),
   (c5_efficiency_ratio emptyTables noDigitRecord).1 (by norm_num [noDigitRecord])⟩

/-- C6: `get_status` (app.py lines 626-634) implements the fixed
decision table evaluated in order: target spend 0 → "无计划消耗" (no
planned spend); else spend progress − GMV progress > 0.10 →
"消耗过快 (需优化)" (overspending, needs optimization); else GMV
progress − time progress < −0.20 → "进度严重滞后" (severely behind
schedule); else "正常 (无需干预)" (normal, no intervention needed). -/
theorem c6_status_decision_table (r : GoalRow) :
    (r.target_spend = 0 → get_status r = "无计划消耗") ∧
    (r.target_spend ≠ 0 → spendProgress r - gmvProgress r > 1/10 →
      get_status r = "消耗过快 (需优化)") ∧
    (r.target_spend ≠ 0 → ¬(spendProgress r - gmvProgress r > 1/10) →
      gmvProgress r - r.time_progress < -(1/5) →
      get_status r = "进度严重滞后") ∧
    (r.target_spend ≠ 0 → ¬(spendProgress r - gmvProgress r > 1/10) →
      ¬(gmvProgress r - r.time_progress < -(1/5)) →
      get_status r = "正常 (无需干预)") := by
  refine ⟨fun h1 => ?_, fun h1 h2 => ?_, fun h1 h2 h3 => ?_, fun h1 h2 h3 => ?_⟩
  · rw [get_status, if_pos h1]
  · rw [get_status, if_neg h1, if_pos (show spendGmvGap r > 1/10 from h2)]
  · rw [get_status, if_neg h1, if_neg (show ¬(spendGmvGap r > 1/10) from h2),
      if_pos (show gmvTimeGap r < -(1/5) from h3)]
  · rw [get_status, if_neg h1, if_neg (show ¬(spendGmvGap r > 1/10) from h2),
      if_neg (show ¬(gmvTimeGap r < -(1/5)) from h3)]

/-- Witness for C6: one concrete goal row per branch of the decision
table. -/
theorem c6_status_decision_table_witness :
    get_status goalRowA = "无计划消耗" ∧
    get_status goalRowB = "消耗过快 (需优化)" ∧
    get_status goalRowC = "进度严重滞后" ∧
    get_status goalRowD = "正常 (无需干预)" :=
  ⟨(c6_status_decision_table goalRowA).1 (by norm_num [goalRowA]),
   (c6_status_decision_table goalRowB).2.1 (by norm_num [goalRowB])
     (by norm_num [goalRowB, spendProgress, gmvProgress]),
   (c6_status_decision_table goalRowC).2.2.1 (by norm_num [goalRowC])
     (by norm_num [goalRowC, spendProgress, gmvProgress])
     (by norm_num [goalRowC, gmvProgress]),
   (c6_status_decision_table goalRowD).2.2.2 (by norm_num [goalRowD])
     (by norm_num [goalRowD, spendProgress, gmvProgress])
     (by norm_num [goalRowD, gmvProgress])⟩

/-- C8: GMV progress (`GMV进度`, app.py line 606) is cumulative GMV /
target GMV and spend progress (`消耗进度`, line 612) is cumulative spend
/ target spend, each defined as 0 when the target is 0; the division is
taken only under a positive denominator, so no division by zero
occurs. -/
theorem c8_goal_progress_ratios (r : GoalRow) :
    (0 < r.target_gmv → gmvProgress r = r.cum_gmv / r.target_gmv) ∧
    (r.target_gmv = 0 → gmvProgress r = 0) ∧
    (0 < r.target_spend → spendProgress r = r.cum_spend / r.target_spend) ∧
    (r.target_spend = 0 → spendProgress r = 0) := by
  refine ⟨fun h => ?_, fun h => ?_, fun h => ?_, fun h => ?_⟩
  · rw [gmvProgress, if_pos h]
  · rw [gmvProgress, if_neg (by rw [h]; exact lt_irrefl 0)]
  · rw [spendProgress, if_pos h]
  · rw [spendProgress, if_neg (by rw [h]; exact lt_irrefl 0)]

/-- Witness for C8: positive targets on `goalRowB`, zero targets on
`goalRowA`. -/
theorem c8_goal_progress_ratios_witness :
    gmvProgress goalRowB = 500 / 1000 ∧ gmvProgress goalRowA = 0 ∧
    spendProgress goalRowB = 1200 / 1000 ∧ spendProgress goalRowA = 0 :=
  ⟨(c8_goal_progress_ratios goalRowB).1 (by norm_num [goalRowB]),
   (c8_goal_progress_ratios goalRowA).2.1 (by norm_num [goalRowA]),
   (c8_goal_progress_ratios goalRowB).2.2.1 (by norm_num [goalRowB]),
   (c8_goal_progress_ratios goalRowA).2.2.2 (by norm_num [goalRowA])⟩

/-- C9: both key normalizations of `load_data` are idempotent:
`normalize(normalize(k)) = normalize(k)` for the campaign-name
normalization (collapse repeated whitespace, strip, lower-case) and for
the account-id normalization (keep digits only). -/
theorem c9_normalization_idempotent (k : String) :
    normCampaign (normCampaign k) = normCampaign k ∧
    joinId (joinId k) = joinId k :=
  ⟨congrArg String.mk (normCampaignKey_idem k.data),
   congrArg String.mk (normAccountKey_idem k.data)⟩

/-- C10: the spend-deviation metric (`消耗偏差值`, app.py line 619) is
the negation of cumulative actual spend whenever target ROI ≤ 0 (in
particular when it is 0), and the division by target ROI happens only
when target ROI > 0. -/
theorem c10_spend_deviation (r : GoalRow) :
    (r.target_roi ≤ 0 → spendDeviation r = -r.cum_spend) ∧
    (0 < r.target_roi →
      spendDeviation r = r.cum_gmv / r.target_roi - r.cum_spend) := by
  constructor
  · intro h
    rw [spendDeviation, if_neg (not_lt.mpr h)]
  · intro h
    rw [spendDeviation, if_pos h]

/-- Witness for C10: `goalRowA` has target ROI 0, `goalRowB` has target
ROI 2. -/
theorem c10_spend_deviation_witness :
    spendDeviation goalRowA = -(0 : ℚ) ∧
    spendDeviation goalRowB = 500 / 2 - 1200 :=
  ⟨(c10_spend_deviation goalRowA).1 (by norm_num [goalRowA]),
   (c10_spend_deviation goalRowB).2 (by norm_num [goalRowB])⟩

/-- C1 as stated fails on the code: `get_cat_from_campaign` uses the
mapping sheet strictly, with no keyword inference over the campaign
name, so enriching campaign "Shopping US" against empty lookup tables
yields category "Unknown", not the claimed "Shopping". -/
theorem c1_counterexample :
    (enrichRecord emptyTables scenarioRecord).category = "Unknown" ∧
    (enrichRecord emptyTables scenarioRecord).category ≠ "Shopping" := by
  constructor
  · rfl
  · intro h
    exact absurd h (by decide)

/-- C1 (amended): enrichment resolves category solely from the direct
campaign-to-category map on the normalized campaign name — a hit
returns the mapped value, a miss returns "Unknown"; there is no URL-map
or keyword fallback, so the scenario row with empty lookup tables gets
category "Unknown" (and manager "Unknown", efficiency ratio 2.5). -/
theorem c1_category_resolution :
    (∀ (t : LookupTables) (c : String),
      lookupFirst (normCampaign c) t.category_direct_map = none →
      get_cat_from_campaign t c = "Unknown") ∧
    (∀ (t : LookupTables) (c v : String),
      lookupFirst (normCampaign c) t.category_direct_map = some v →
      get_cat_from_campaign t c = v) ∧
    ((enrichRecord emptyTables scenarioRecord).manager = "Unknown" ∧
     (enrichRecord emptyTables scenarioRecord).category = "Unknown" ∧
     (enrichRecord emptyTables scenarioRecord).roas = 5/2) := by
  refine ⟨fun t c h => ?_, fun t c v h => ?_, rfl, rfl, ?_⟩
  · rw [get_cat_from_campaign, h]
    rfl
  · rw [get_cat_from_campaign, h]
    rfl
  · show rowROAS scenarioRecord.spend scenarioRecord.convValue = 5/2
    norm_num [rowROAS, scenarioRecord]

/-- Witness for C1 (amended): a lookup miss on the empty table and a
lookup hit on `catTables` (key normalized from "Shopping  US"). -/
theorem c1_category_resolution_witness :
    get_cat_from_campaign emptyTables "Shopping US" = "Unknown" ∧
    get_cat_from_campaign catTables "Shopping  US" = "Grooming" :=
  ⟨c1_category_resolution.1 emptyTables "Shopping US" rfl,
   c1_category_resolution.2.1 catTables "Shopping  US" "Grooming" (by
    have hkey : normCampaign "Shopping  US" = "shopping us" := by
      simp [normCampaign, normCampaignKey, pyWords, takeWord, dropWord, unwords]
    rw [hkey]
    rfl)⟩

/-- C2 as stated fails on the code: the normalization applied before
lookup and joining (app.py lines 92 and 203) strips every non-digit
character instead of extracting the first `ddd-ddd-dddd` substring — on
the raw id "123-456-7890" the code produces "1234567890", not the
claimed "123-456-7890". -/
theorem c2_counterexample :
    joinId "123-456-7890" = "1234567890" ∧
    claimedAccountNormalize "123-456-7890" = "123-456-7890" ∧
    joinId "123-456-7890" ≠ claimedAccountNormalize "123-456-7890" := by
  refine ⟨rfl, rfl, ?_⟩
  intro h
  exact absurd h (by decide)

/-- C2 (amended): the account normalization applied before lookup and
joining keeps exactly the digit characters of the raw id, and no row is
excluded — a digit-free account id simply normalizes to the empty join
key and the row survives enrichment with manager "Unknown" when that
key is unmapped. -/
theorem c2_account_normalization :
    (∀ s : String, ((joinId s).data.all Char.isDigit) = true) ∧
    (∀ (t : LookupTables) (rs : List MetricRecord),
      (enrichAll t rs).length = rs.length) ∧
    (∀ (t : LookupTables) (r : MetricRecord),
      r.account.data.filter Char.isDigit = [] →
      lookupFirst "" (managerJoinMap t) = none →
      (enrichRecord t r).manager = "Unknown") := by
  refine ⟨fun s => ?_, fun t rs => ?_, fun t r h hnone => ?_⟩
  · apply List.all_eq_true.mpr
    intro x hx
    exact (List.mem_filter.mp hx).2
  · exact List.length_map _ _
  · show ((lookupFirst (joinId r.account) (managerJoinMap t)).bind id).getD
        "Unknown" = "Unknown"
    have hjoin : joinId r.account = "" := by
      show String.mk (r.account.data.filter Char.isDigit) = ""
      rw [h]
    rw [hjoin, hnone]
    rfl

/-- Witness for C2 (amended) at the digit-free account id "TOTAL". -/
theorem c2_account_normalization_witness :
    ((joinId "a1b2").data.all Char.isDigit) = true ∧
    (enrichAll emptyTables [scenarioRecord]).length = 1 ∧
    (enrichRecord emptyTables noDigitRecord).manager = "Unknown" :=
  ⟨c2_account_normalization.1 "a1b2",
   c2_account_normalization.2.1 emptyTables [scenarioRecord],
   c2_account_normalization.2.2 emptyTables noDigitRecord (by decide) rfl⟩

/-- C3 as stated fails on the code: `drop_duplicates(subset=['join_id'])`
(app.py lines 94 and 213) uses the pandas default `keep='first'`, so
with the same normalized account key defined twice the FIRST manager
("Alice") survives, not the last-defined one ("Bob"). -/
theorem c3_counterexample :
    (enrichRecord dupManagerTables dupAccountRecord).manager = "Alice" ∧
    (enrichRecord dupManagerTables dupAccountRecord).manager ≠ "Bob" := by
  constructor
  · rfl
  · intro h
    exact absurd h (by decide)

/-- C3 (amended): the deduplicated manager map keeps exactly one entry
per normalized key, and lookups through it return the manager of the
FIRST-defined duplicate row (first-defined wins). -/
theorem c3_manager_map_first_wins (t : LookupTables) (k : String) :
    ((managerJoinMap t).map Prod.fst).Nodup ∧
    lookupFirst k (managerJoinMap t) =
      lookupFirst k (t.managerRows.map (fun p => (joinId p.1, p.2))) := by
  constructor
  · exact (dedupFirstAux_nodup_keys Prod.fst _ []).1
  · unfold lookupFirst managerJoinMap dedupFirst
    rw [find?_dedupFirstAux k _ [] (List.not_mem_nil k)]

/-- C7: provided the lookup sheets carry no explicitly empty manager or
category cell (empty sheet cells arrive as NaN and are filled with
"Unknown" by the code), every enriched record has a non-empty manager
and a non-empty category; an unmapped account yields manager "Unknown",
an unmapped campaign yields category "Unknown", and enrichment never
drops a row on a lookup miss. -/
theorem c7_enrichment_total (t : LookupTables)
    (hm : ∀ p ∈ t.managerRows, ∀ v : String, p.2 = some v → v ≠ "")
    (hc : ∀ p ∈ t.category_direct_map, p.2 ≠ "") :
    (∀ r : MetricRecord,
      (enrichRecord t r).manager ≠ "" ∧ (enrichRecord t r).category ≠ "") ∧
    (∀ r : MetricRecord,
      lookupFirst (joinId r.account) (managerJoinMap t) = none →
      (enrichRecord t r).manager = "Unknown") ∧
    (∀ r : MetricRecord,
      lookupFirst (normCampaign r.campaign) t.category_direct_map = none →
      (enrichRecord t r).category = "Unknown") ∧
    (∀ rs : List MetricRecord, (enrichAll t rs).length = rs.length) := by
  refine ⟨fun r => ⟨?_, ?_⟩, fun r hnone => ?_, fun r hnone => ?_, fun rs => ?_⟩
  · show ((lookupFirst (joinId r.account) (managerJoinMap t)).bind id).getD
        "Unknown" ≠ ""
    cases hl : lookupFirst (joinId r.account) (managerJoinMap t) with
    | none =>
      intro hfalse
      exact absurd hfalse (by decide)
    | some cell =>
      cases cell with
      | none =>
        intro hfalse
        exact absurd hfalse (by decide)
      | some v =>
        show v ≠ ""
        obtain ⟨pr, hfind, hsnd⟩ := Option.map_eq_some'.mp hl
        have hmem : pr ∈ managerJoinMap t := List.mem_of_find?_eq_some hfind
        have hmem2 : pr ∈ t.managerRows.map (fun p => (joinId p.1, p.2)) :=
          mem_of_mem_dedupFirstAux Prod.fst _ [] pr hmem
        obtain ⟨q, hq, hqe⟩ := List.mem_map.mp hmem2
        apply hm q hq v
        rw [← hqe] at hsnd
        exact hsnd
  · show (lookupFirst (normCampaign r.campaign) t.category_direct_map).getD
        "Unknown" ≠ ""
    cases hl : lookupFirst (normCampaign r.campaign) t.category_direct_map with
    | none =>
      intro hfalse
      exact absurd hfalse (by decide)
    | some v =>
      show v ≠ ""
      obtain ⟨pr, hfind, hsnd⟩ := Option.map_eq_some'.mp hl
      have hmem : pr ∈ t.category_direct_map := List.mem_of_find?_eq_some hfind
      rw [← hsnd]
      exact hc pr hmem
  · show ((lookupFirst (joinId r.account) (managerJoinMap t)).bind id).getD
        "Unknown" = "Unknown"
    rw [hnone]
    rfl
  · show (lookupFirst (normCampaign r.campaign) t.category_direct_map).getD
        "Unknown" = "Unknown"
    rw [hnone]
    rfl
  · exact List.length_map _ _

/-- Witness for C7 at the empty lookup tables and the scenario row. -/
theorem c7_enrichment_total_witness :
    (enrichRecord emptyTables scenarioRecord).manager ≠ "" ∧
    (enrichRecord emptyTables scenarioRecord).category = "Unknown" ∧
    (enrichAll emptyTables [scenarioRecord]).length = 1 := by
  have h := c7_enrichment_total emptyTables
    (by intro p hp; simp [emptyTables] at hp) (by intro p hp; simp [emptyTables] at hp)
  exact ⟨(h.1 scenarioRecord).1, h.2.2.1 scenarioRecord rfl,
    h.2.2.2 [scenarioRecord]⟩

/-- C4 (modelled from the spec, §4.5): merging an existing record set
with a batch of new rows collapses existing ++ new by the composite key
over all dimension (non-metric) columns keeping the last occurrence, so
when the new batch holds exactly one row with a given dimension key and
the existing set also holds a row with that key but different metric
values, exactly one row with that key survives the merge, and it is the
new batch's row (its metric values win). -/
theorem c4_merge_upsert (schema : List String)
    (existing newRows : List UploadRow) (rOld rNew : UploadRow) (k : String)
    (hOld : rOld ∈ existing) (hkOld : dedupKey schema rOld = k)
    (hNew : newRows.filter (fun r => dedupKey schema r == k) = [rNew])
    (hMet : metricCells schema rOld ≠ metricCells schema rNew) :
    (mergeRecords schema existing newRows).filter
      (fun r => dedupKey schema r == k) = [rNew] := by
  unfold mergeRecords
  rw [filter_dedupKeepLast (dedupKey schema) k (existing ++ newRows)]
  rw [List.filter_append, hNew, List.getLast?_concat]
  rfl

/-- Witness for C4: a one-row existing set and a one-row new batch with
the same date+account dimensions and a different cost. -/
theorem c4_merge_upsert_witness :
    (mergeRecords mergeSchema [oldUploadRow] [newUploadRow]).filter
      (fun r => dedupKey mergeSchema r == mergeKey) = [newUploadRow] :=
  c4_merge_upsert mergeSchema [oldUploadRow] [newUploadRow] oldUploadRow
    newUploadRow mergeKey (by decide) (by decide) (by decide) (by decide)

end AdsBI
